import Mathlib

/-!
Verification of the LeadForge enrichment core (cache + providers + orchestrator).

The Python sources `app/services/enrichment/base.py`, `app/services/enrichment/providers.py`,
`app/services/enrichment/service.py` and `app/services/cache.py` are shallowly embedded below.
Python strings are modelled as `List Char`; Python dicts are modelled as insertion-ordered
association lists (`Dict`) with Python's assignment/update semantics; network calls made by
the two HTTP providers are modelled by an explicit outcome argument of type
`Except (List Char) HttpResponse` (an `Except.error` models a raised transport
error / timeout, carrying `str(e)`; an `Except.ok` models a completed HTTP exchange).
Redis is modelled by an explicit `CacheBackend` value threaded through the orchestrator,
together with a trace of the backend operations that were attempted.
-/

/-- The characters of a Python string literal. -/
def chars (s : String) : List Char := s.data

/-- Python's `str.split(sep)` for a one-character separator `sep`
(as used by `email.split("@")`, `local_part.split(".")`, `local_part.split("_")`).
Always returns a non-empty list; occurrences of the separator are field boundaries. -/
def splitOnChar (sep : Char) : List Char → List (List Char)
  | [] => [[]]
  | c :: rest =>
      let r := splitOnChar sep rest
      if c = sep then [] :: r else (c :: r.headD []) :: r.tail

/-- Index of the first occurrence of `pat` as a contiguous sublist of `l` (leftmost match). -/
def findIdx (pat : List Char) : List Char → Option Nat
  | [] => if pat = [] then some 0 else none
  | c :: rest =>
      if pat.isPrefixOf (c :: rest) then some 0
      else (findIdx pat rest).map (· + 1)

/-- A JSON-like value, the codomain of the `data` dictionaries produced by providers. -/
inductive Value where
  | str : List Char → Value
  | bool : Bool → Value
  | nat : Nat → Value
  | null : Value
  | list : List Value → Value
  | dict : List (String × Value) → Value

/-- A Python dict from string keys to values, as an insertion-ordered association list. -/
abbrev Dict := List (String × Value)

/-- First binding of key `k` (Python dicts bind each key at most once). -/
def dictLookup : Dict → String → Option Value
  | [], _ => none
  | (k₀, v) :: rest, k => if k₀ = k then some v else dictLookup rest k

/-- Python dict assignment `d[k] = v`: replace in place if the key exists, else append. -/
def dictInsert : Dict → String → Value → Dict
  | [], k, v => [(k, v)]
  | (k₀, v₀) :: rest, k, v =>
      if k₀ = k then (k, v) :: rest else (k₀, v₀) :: dictInsert rest k v

/-- Python's `d.update(e)`: assign every binding of `e` into `d`, in order. -/
def dictUpdate (d e : Dict) : Dict :=
  e.foldl (fun acc kv => dictInsert acc kv.1 kv.2) d

theorem dictLookup_dictInsert (d : Dict) (k : String) (v : Value) (k' : String) :
    dictLookup (dictInsert d k v) k' = if k = k' then some v else dictLookup d k' := by
  induction d with
  | nil => simp [dictInsert, dictLookup]
  | cons hd tl ih =>
      obtain ⟨k₀, v₀⟩ := hd
      simp only [dictInsert]
      by_cases h₀ : k₀ = k
      · subst h₀
        simp only [if_pos rfl, dictLookup]
        by_cases h' : k₀ = k' <;> simp [h']
      · simp only [if_neg h₀, dictLookup]
        by_cases h' : k₀ = k'
        · subst h'
          have hne : ¬ k = k₀ := fun hk => h₀ hk.symm
          simp [hne]
        · simp [h', ih]

theorem dictLookup_eq_none_iff (e : Dict) (k : String) :
    dictLookup e k = none ↔ k ∉ e.map Prod.fst := by
  induction e with
  | nil => simp [dictLookup]
  | cons hd tl ih =>
      obtain ⟨k₀, v₀⟩ := hd
      by_cases h₀ : k₀ = k
      · subst h₀; simp [dictLookup]
      · have hne : ¬ k = k₀ := fun hk => h₀ hk.symm
        simp [dictLookup, h₀, hne, ih]

theorem dictLookup_dictUpdate_of_not_mem (d e : Dict) (k : String)
    (h : k ∉ e.map Prod.fst) :
    dictLookup (dictUpdate d e) k = dictLookup d k := by
  induction e generalizing d with
  | nil => rfl
  | cons hd tl ih =>
      obtain ⟨k₀, v₀⟩ := hd
      have h1 : ¬ k₀ = k := by intro hk; exact h (by simp [hk])
      have h2 : k ∉ tl.map Prod.fst := by intro hk; exact h (by simp [hk])
      have step : dictUpdate d ((k₀, v₀) :: tl) = dictUpdate (dictInsert d k₀ v₀) tl := rfl
      rw [step, ih _ h2, dictLookup_dictInsert]
      simp [h1]

theorem dictLookup_dictUpdate_of_some (d e : Dict) (k : String) (v : Value)
    (hn : (e.map Prod.fst).Nodup) (h : dictLookup e k = some v) :
    dictLookup (dictUpdate d e) k = some v := by
  induction e generalizing d with
  | nil => simp [dictLookup] at h
  | cons hd tl ih =>
      obtain ⟨k₀, v₀⟩ := hd
      have hn1 : k₀ ∉ tl.map Prod.fst := by
        simp only [List.map_cons, List.nodup_cons] at hn; exact hn.1
      have hn2 : (tl.map Prod.fst).Nodup := by
        simp only [List.map_cons, List.nodup_cons] at hn; exact hn.2
      have step : dictUpdate d ((k₀, v₀) :: tl) = dictUpdate (dictInsert d k₀ v₀) tl := rfl
      by_cases h₀ : k₀ = k
      · subst h₀
        simp only [dictLookup, eq_self_iff_true, if_true] at h
        rw [step, dictLookup_dictUpdate_of_not_mem _ _ _ hn1, dictLookup_dictInsert]
        simp [h]
      · simp only [dictLookup, if_neg h₀] at h
        rw [step]; exact ih _ hn2 h

theorem dictInsert_of_not_mem (d : Dict) (k : String) (v : Value)
    (h : k ∉ d.map Prod.fst) : dictInsert d k v = d ++ [(k, v)] := by
  induction d with
  | nil => rfl
  | cons hd tl ih =>
      obtain ⟨k₀, v₀⟩ := hd
      have h1 : ¬ k₀ = k := by intro hk; exact h (by simp [hk])
      have h2 : k ∉ tl.map Prod.fst := by intro hk; exact h (by simp [hk])
      simp [dictInsert, h1, ih h2]

theorem dictUpdate_of_disjoint (d e : Dict)
    (hn : (e.map Prod.fst).Nodup)
    (hdis : ∀ k ∈ e.map Prod.fst, k ∉ d.map Prod.fst) :
    dictUpdate d e = d ++ e := by
  induction e generalizing d with
  | nil => simp [dictUpdate]
  | cons hd tl ih =>
      obtain ⟨k₀, v₀⟩ := hd
      have hn1 : k₀ ∉ tl.map Prod.fst := by
        simp only [List.map_cons, List.nodup_cons] at hn; exact hn.1
      have hn2 : (tl.map Prod.fst).Nodup := by
        simp only [List.map_cons, List.nodup_cons] at hn; exact hn.2
      have hk₀ : k₀ ∉ d.map Prod.fst := hdis k₀ (by simp)
      have hdis' : ∀ k ∈ tl.map Prod.fst, k ∉ (d ++ [(k₀, v₀)]).map Prod.fst := by
        intro k hk
        simp only [List.map_append, List.mem_append, List.map_cons, List.map_nil,
          List.mem_singleton]
        push_neg
        refine ⟨hdis k (by simp [hk]), ?_⟩
        intro hkk
        exact hn1 (hkk ▸ hk)
      have step : dictUpdate d ((k₀, v₀) :: tl) = dictUpdate (dictInsert d k₀ v₀) tl := rfl
      rw [step, dictInsert_of_not_mem _ _ _ hk₀, ih _ hn2 hdis']
      simp

theorem dictUpdate_nil (e : Dict) (hn : (e.map Prod.fst).Nodup) :
    dictUpdate [] e = e := by
  simpa using dictUpdate_of_disjoint [] e hn (by simp)

/-!
## `app/services/enrichment/base.py`
-/

/-- `EnrichmentResult` dataclass from `base.py`: the outcome of one provider invocation. -/
structure EnrichmentResult where
  provider : List Char
  success : Bool
  data : Dict
  error : Option (List Char)

/-- A provider (the `EnrichmentProvider` ABC from `base.py`): a unique `name` plus an
`enrich(email, domain, current_data)` operation. A Python `enrich` may raise; this is
modelled by the `Except` codomain, an `Except.error` carrying `str(e)`. -/
structure EnrichmentProvider where
  name : List Char
  enrich : List Char → List Char → Dict → Except (List Char) EnrichmentResult

namespace EnrichmentProvider

/-- `safe_enrich` from `base.py`: invoke the real `enrich` and convert any raised
exception into a failure `EnrichmentResult` (success=False, error=str(e)). -/
def safe_enrich (p : EnrichmentProvider) (email domain : List Char) (current_data : Dict) :
    EnrichmentResult :=
  match p.enrich email domain current_data with
  | Except.ok r => r
  | Except.error e => { provider := p.name, success := false, data := [], error := some e }

end EnrichmentProvider

/-!
## `app/services/enrichment/providers.py`
-/

/-- `GENERIC_DOMAINS` from `providers.py` (a Python set; only membership is ever used,
so a list models it faithfully). -/
def GENERIC_DOMAINS : List (List Char) :=
  [chars "gmail.com", chars "hotmail.com", chars "outlook.com", chars "yahoo.com",
   chars "icloud.com", chars "protonmail.com", chars "live.com", chars "msn.com",
   chars "aol.com", chars "mail.com", chars "zoho.com", chars "yandex.com",
   chars "tutanota.com", chars "gmx.com", chars "fastmail.com"]

/-- Python `str.capitalize()`: first character upper-cased, the rest lower-cased. -/
def pyCapitalize : List Char → List Char
  | [] => []
  | c :: rest => c.toUpper :: rest.map Char.toLower

/-- Python `" ".join(parts)`. -/
def joinSpace : List (List Char) → List Char
  | [] => []
  | [x] => x
  | x :: xs => x ++ ' ' :: joinSpace xs

namespace EmailAnalysisProvider

/-- The name-guess logic of `EmailAnalysisProvider.enrich` (providers.py lines 44-51):
if the local part contains `"."` split on `"."`, elif it contains `"_"` split on `"_"`,
capitalize each segment and join with spaces; otherwise no guess. -/
def name_guess (local_part : List Char) : Option (List Char) :=
  if '.' ∈ local_part then
    some (joinSpace ((splitOnChar '.' local_part).map pyCapitalize))
  else if '_' ∈ local_part then
    some (joinSpace ((splitOnChar '_' local_part).map pyCapitalize))
  else
    none

/-- `role_patterns` from `EmailAnalysisProvider.enrich` (a dict literal; iteration
order is insertion order). -/
def role_patterns : List (String × String) :=
  [("info", "generic"), ("contact", "generic"), ("hello", "generic"),
   ("support", "support"), ("sales", "sales"), ("admin", "admin"),
   ("ceo", "executive"), ("cto", "executive"), ("cfo", "executive"),
   ("hr", "human_resources")]

/-- The role-detection loop: first pattern such that `local_part.lower().startswith(pattern)`
wins; default `"personal"`. -/
def email_role (local_part : List Char) : List Char :=
  match role_patterns.find? (fun pr => (chars pr.1).isPrefixOf (local_part.map Char.toLower)) with
  | some pr => chars pr.2
  | none => chars "personal"

/-- `EmailAnalysisProvider.enrich`: pure analysis of the email string; always succeeds.
`local_part = email.split("@")[0]` (the whole email when no `"@"` is present). -/
def enrich (email domain : List Char) (current_data : Dict) : EnrichmentResult :=
  let local_part := (splitOnChar '@' email).headD []
  let is_corporate := if domain ∈ GENERIC_DOMAINS then false else true
  { provider := chars "email_analysis"
    success := true
    data :=
      [("is_corporate_email", Value.bool is_corporate),
       ("email_local_part", Value.str local_part),
       ("email_role_type", Value.str (email_role local_part)),
       ("name_from_email",
         match name_guess local_part with
         | some n => Value.str n
         | none => Value.null),
       ("domain", Value.str domain)]
    error := none }

/-- The provider object `EmailAnalysisProvider()` as placed in the service's provider
list; its `enrich` never raises. -/
def provider : EnrichmentProvider :=
  { name := chars "email_analysis"
    enrich := fun email domain current_data => Except.ok (enrich email domain current_data) }

end EmailAnalysisProvider

/-- An HTTP exchange as observed by a provider (httpx response): final status code,
body text (`response.text`), response headers (httpx exposes lower-cased names),
final URL after redirects (`str(response.url)`), and elapsed time in milliseconds
(`response.elapsed.total_seconds() * 1000`; modelled as a natural number — no claim
depends on its fractional part). -/
structure HttpResponse where
  status : Nat
  text : List Char
  headers : List (List Char × List Char)
  url : List Char
  elapsed_ms : Nat

/-- Does `pat` occur as a contiguous substring of `l`? (Python's `pat in l`.) -/
def containsSeq (l pat : List Char) : Bool :=
  (findIdx pat l).isSome

namespace WebScrapingProvider

/-- One attempt of the regex `<title[^>]*>(.*?)</title>` (IGNORECASE, DOTALL) at the
current position: `low` is the lower-cased suffix starting here, `orig` the original-case
suffix. `[^>]*>` reaches exactly the first `>` after `<title`; the lazy `(.*?)` stops at
the first `</title>`. The capture is taken from the original-case text. -/
def titleAt (orig low : List Char) : Option (List Char) :=
  if (chars "<title").isPrefixOf low then
    match findIdx ['>'] (low.drop 6) with
    | none => none
    | some j =>
        match findIdx (chars "</title>") (low.drop (6 + j + 1)) with
        | none => none
        | some q => some ((orig.drop (6 + j + 1)).take q)
  else none

/-- `re.search` for the title pattern: try each start position left to right. -/
def searchTitle : List Char → List Char → Option (List Char)
  | o@(_ :: o'), l@(_ :: l') =>
      match titleAt o l with
      | some t => some t
      | none => searchTitle o' l'
  | _, _ => none

/-- `re.search(r"<title[^>]*>(.*?)</title>", html, re.IGNORECASE | re.DOTALL)`,
returning capture group 1. -/
def extract_title (html : List Char) : Option (List Char) :=
  searchTitle html (html.map Char.toLower)

end WebScrapingProvider

namespace WebScrapingProvider

/-- Parse one quote character (the regex character class `["\']`). -/
def parseQuote : List Char → Option (List Char)
  | '"' :: rest => some rest
  | '\'' :: rest => some rest
  | _ => none

/-- Number of characters consumed when `lit` followed by a quote matches a text prefix. -/
def litQuoteLen (lit : List Char) (l : List Char) : Option Nat :=
  if lit.isPrefixOf l then
    match parseQuote (l.drop lit.length) with
    | some _ => some (lit.length + 1)
    | none => none
  else none

/-- Characters consumed by `name=["\']description["\']` at this position. -/
def nameDescAt (l : List Char) : Option Nat :=
  match litQuoteLen (chars "name=") l with
  | none => none
  | some n =>
      match litQuoteLen (chars "description") (l.drop n) with
      | none => none
      | some m => some (n + m)

/-- Characters consumed by `content=["\']` at this position. -/
def contentQuoteAt (l : List Char) : Option Nat :=
  litQuoteLen (chars "content=") l

/-- The regex fragment `[^>]+X`: consume at least one non-`>` character, then match `X`
at the earliest position (λ-semantics of the engine restricted to a single candidate;
realistic tags contain the literal once, where lazy and greedy selection coincide).
Returns (offset of the match, characters it consumed). -/
def findAfterNonGt (matchAt : List Char → Option Nat) : List Char → Option (Nat × Nat)
  | [] => none
  | c :: rest =>
      if c = '>' then none
      else
        match matchAt rest with
        | some n => some (1, n)
        | none => (findAfterNonGt matchAt rest).map (fun p => (p.1 + 1, p.2))

/-- The lazy capture `(.*?)["\']` with `.` not matching a newline: length of the captured
text up to the first quote; fails at a newline or at the end of input. -/
def captureUntilQuote : List Char → Option Nat
  | [] => none
  | c :: rest =>
      if c = '"' ∨ c = '\'' then some 0
      else if c = '\n' then none
      else (captureUntilQuote rest).map (· + 1)

/-- One attempt of `<meta[^>]+name=["\']description["\'][^>]+content=["\'](.*?)["\']`
(IGNORECASE) at the current position; the capture is taken from the original-case text. -/
def metaAt (orig low : List Char) : Option (List Char) :=
  if (chars "<meta").isPrefixOf low then
    match findAfterNonGt nameDescAt (low.drop 5) with
    | none => none
    | some (i, n) =>
        let afterName := 5 + i + n
        match findAfterNonGt contentQuoteAt (low.drop afterName) with
        | none => none
        | some (j, m) =>
            let capStart := afterName + j + m
            match captureUntilQuote (low.drop capStart) with
            | none => none
            | some len => some ((orig.drop capStart).take len)
  else none

/-- `re.search` for the meta-description pattern: try each start position left to right. -/
def searchMeta : List Char → List Char → Option (List Char)
  | o@(_ :: o'), l@(_ :: l') =>
      match metaAt o l with
      | some t => some t
      | none => searchMeta o' l'
  | _, _ => none

/-- `re.search(r'<meta[^>]+name=["\']description["\'][^>]+content=["\'](.*?)["\']', html,
re.IGNORECASE)`, returning capture group 1. -/
def extract_meta_description (html : List Char) : Option (List Char) :=
  searchMeta html (html.map Char.toLower)

/-- `tech_signals` from `WebScrapingProvider.enrich`: technology name → HTML substring
signals (a dict literal; iteration order is insertion order). -/
def tech_signals : List (String × List String) :=
  [("WordPress", ["wp-content", "wp-includes"]),
   ("Shopify", ["cdn.shopify.com", "shopify"]),
   ("React", ["react", "__next", "reactDOM"]),
   ("Vue", ["vue.js", "__vue"]),
   ("Angular", ["ng-version", "angular"]),
   ("HubSpot", ["hubspot", "hs-scripts"]),
   ("Salesforce", ["salesforce", "pardot"]),
   ("Google Analytics", ["google-analytics", "gtag"]),
   ("Google Tag Manager", ["googletagmanager"]),
   ("Stripe", ["stripe.com", "js.stripe"]),
   ("Intercom", ["intercom", "intercomSettings"]),
   ("Zendesk", ["zendesk", "zdassets"])]

/-- The technology-detection loop: a technology is detected when any of its signals,
lower-cased, occurs in the lower-cased page body (non-exclusive). -/
def detect_technologies (html : List Char) : List Value :=
  let html_lower := html.map Char.toLower
  (tech_signals.filter
      (fun ts => ts.2.any (fun s => containsSeq html_lower ((chars s).map Char.toLower)))).map
    (fun ts => Value.str (chars ts.1))

/-- The character class `[\w]` (regex word character). -/
def isWordChar (c : Char) : Bool :=
  c.isAlphanum || c = '_'

/-- Characters consumed by `https?://(?:www\.)?HOST[CLASS]+` at this position, where
`HOST` is the first matching alternative of `hosts` and `CLASS+` takes the maximal
non-empty run of characters accepted by `allowed` (greedy). -/
def urlMatchLen (hosts : List (List Char)) (allowed : Char → Bool) (l : List Char) : Option Nat :=
  if (chars "http").isPrefixOf l then
    let afterHttp := l.drop 4
    let schemeRest :=
      if (chars "s://").isPrefixOf afterHttp then some (afterHttp.drop 4)
      else if (chars "://").isPrefixOf afterHttp then some (afterHttp.drop 3)
      else none
    match schemeRest with
    | none => none
    | some r₁ =>
        let r₂ := if (chars "www.").isPrefixOf r₁ then r₁.drop 4 else r₁
        match hosts.find? (fun h => h.isPrefixOf r₂) with
        | none => none
        | some h =>
            let run := (r₂.drop h.length).takeWhile allowed
            if run.isEmpty then none else some (l.length - r₂.length + h.length + run.length)
  else none

/-- `re.search` for a social-profile URL pattern (IGNORECASE): leftmost match wins;
`group(0)` is taken from the original-case text. -/
def searchUrl (hosts : List (List Char)) (allowed : Char → Bool) :
    List Char → List Char → Option (List Char)
  | o@(_ :: o'), l@(_ :: l') =>
      match urlMatchLen hosts allowed l with
      | some n => some (o.take n)
      | none => searchUrl hosts allowed o' l'
  | _, _ => none

/-- The social-link extraction loop over `social_patterns` (dict literal; insertion
order): for each platform, the first match of its URL pattern, if any.
The patterns are `https?://(?:www\.)?HOST/CLASS+` with per-platform host and
trailing character class (`[\w-]`, `[\w]`, or `[\w.]`). -/
def social_links (html : List Char) : List (String × Value) :=
  let hl := html.map Char.toLower
  let entries : List (String × Option (List Char)) :=
    [("linkedin", searchUrl [chars "linkedin.com/company/"]
        (fun c => isWordChar c || c = '-') html hl),
     ("twitter", searchUrl [chars "twitter.com/", chars "x.com/"] isWordChar html hl),
     ("facebook", searchUrl [chars "facebook.com/"]
        (fun c => isWordChar c || c = '.') html hl),
     ("instagram", searchUrl [chars "instagram.com/"]
        (fun c => isWordChar c || c = '.') html hl),
     ("github", searchUrl [chars "github.com/"]
        (fun c => isWordChar c || c = '-') html hl)]
  entries.foldl
    (fun acc e =>
      match e.2 with
      | some u => acc ++ [(e.1, Value.str u)]
      | none => acc) []

end WebScrapingProvider

/-- Python `str.strip()`: remove leading and trailing whitespace. -/
def pyStrip (l : List Char) : List Char :=
  ((l.dropWhile Char.isWhitespace).reverse.dropWhile Char.isWhitespace).reverse

namespace WebScrapingProvider

/-- The `data` dictionary built by `WebScrapingProvider.enrich` from a completed HTTP
GET exchange: sequential dict assignments with pairwise-distinct literal keys, written
here as list concatenation. -/
def buildData (response : HttpResponse) : Dict :=
  (match extract_title response.text with
   | some t => [("page_title", Value.str ((pyStrip t).take 200))]
   | none => []) ++
  (match extract_meta_description response.text with
   | some m => [("meta_description", Value.str ((pyStrip m).take 500))]
   | none => []) ++
  [("technologies", Value.list (detect_technologies response.text))] ++
  (match social_links response.text with
   | [] => []
   | links => [("social_links", Value.dict links)]) ++
  [("website_status", Value.nat response.status),
   ("final_url", Value.str response.url)]

/-- `WebScrapingProvider.enrich`: skip generic domains with a failure result; otherwise
issue the GET (`webNet` is the outcome of `client.get(f"https://{domain}")`; a raised
transport error or timeout propagates out of `enrich`) and return success=True with the
scraped data — the final status code is recorded in the data, never checked. -/
def enrich (webNet : Except (List Char) HttpResponse) (email domain : List Char)
    (current_data : Dict) : Except (List Char) EnrichmentResult :=
  if domain ∈ GENERIC_DOMAINS then
    Except.ok
      { provider := chars "web_scraping", success := false, data := [],
        error := some (chars "Dominio genérico, no se hace scraping") }
  else
    match webNet with
    | Except.error e => Except.error e
    | Except.ok response =>
        Except.ok
          { provider := chars "web_scraping", success := true,
            data := buildData response, error := none }

/-- The provider object `WebScrapingProvider()` as placed in the service's provider list,
given the outcome of its (only) outbound HTTP request. -/
def provider (webNet : Except (List Char) HttpResponse) : EnrichmentProvider :=
  { name := chars "web_scraping", enrich := enrich webNet }

end WebScrapingProvider

namespace DnsProvider

/-- `cdn_headers` from `DnsProvider.enrich`: CDN provider → marker header names
(a dict literal; iteration order is insertion order). -/
def cdn_headers : List (String × List String) :=
  [("cloudflare", ["cf-ray", "cf-cache-status"]),
   ("aws_cloudfront", ["x-amz-cf-id"]),
   ("fastly", ["x-served-by"]),
   ("akamai", ["x-akamai-transformed"]),
   ("vercel", ["x-vercel-id"]),
   ("netlify", ["x-nf-request-id"])]

/-- `headers[k]` on the dict built from the response headers. -/
def headerLookup (hs : List (List Char × List Char)) (k : List Char) : Option (List Char) :=
  (hs.find? (fun h => h.1 == k)).map (fun h => h.2)

/-- `k in headers`. -/
def headerHas (hs : List (List Char × List Char)) (k : List Char) : Bool :=
  (headerLookup hs k).isSome

/-- The `data` dictionary built by `DnsProvider.enrich` from a completed HTTP HEAD
exchange: optional `web_server` (the `Server` header verbatim), optional `cdn` (first
CDN in table order with any marker header present — the loop breaks), then `has_ssl`
(final URL starts with `"https"`) and `response_time_ms`. -/
def buildData (response : HttpResponse) : Dict :=
  (match headerLookup response.headers (chars "server") with
   | some v => [("web_server", Value.str v)]
   | none => []) ++
  (match cdn_headers.find? (fun ch => ch.2.any (fun h => headerHas response.headers (chars h))) with
   | some ch => [("cdn", Value.str (chars ch.1))]
   | none => []) ++
  [("has_ssl", Value.bool ((chars "https").isPrefixOf response.url)),
   ("response_time_ms", Value.nat response.elapsed_ms)]

/-- `DnsProvider.enrich`: skip generic domains with a failure result; otherwise issue
the HEAD (`dnsNet` is the outcome of `client.head(f"https://{domain}")`; a raised
transport error or timeout propagates out of `enrich`) and return success=True with the
header-derived data — the status code is never checked. -/
def enrich (dnsNet : Except (List Char) HttpResponse) (email domain : List Char)
    (current_data : Dict) : Except (List Char) EnrichmentResult :=
  if domain ∈ GENERIC_DOMAINS then
    Except.ok
      { provider := chars "dns_info", success := false, data := [],
        error := some (chars "Dominio genérico, no se analiza") }
  else
    match dnsNet with
    | Except.error e => Except.error e
    | Except.ok response =>
        Except.ok
          { provider := chars "dns_info", success := true,
            data := buildData response, error := none }

/-- The provider object `DnsProvider()` as placed in the service's provider list. -/
def provider (dnsNet : Except (List Char) HttpResponse) : EnrichmentProvider :=
  { name := chars "dns_info", enrich := enrich dnsNet }

end DnsProvider

/-!
## `app/services/cache.py` and the consolidated result
-/

/-- `stats` dictionary of a consolidated enrichment (`_enrich_full`, service.py). -/
structure EnrichmentStats where
  total_providers : Nat
  successful : Nat
  failed : Nat

/-- The dictionary returned by `EnrichmentService.enrich` (the spec's
`ConsolidatedEnrichment`): per-provider result snapshots, the merged `consolidated`
mapping, run statistics and the cache flag. Cached values are the JSON round-trip of
such a dictionary; they are stored structurally here. -/
structure ConsolidatedEnrichment where
  provider_results : List EnrichmentResult
  consolidated : Dict
  stats : EnrichmentStats
  from_cache : Bool

/-- One backend operation attempted by `CacheService` (`redis.get` / `redis.set` with
its expiry), whether or not the backend then failed. -/
inductive CacheOp where
  | read : List Char → CacheOp
  | write : List Char → Nat → CacheOp

/-- The Redis collaborator as the orchestrator sees it: `available` models whether
`get_redis()` succeeds (`EnrichmentService._get_cache` returns None when it raises);
`getFails` / `setFails` model the backend raising inside `redis.get` / `redis.set`
(caught by `CacheService.get` / `CacheService.set`); `store` is the current key space
(key, value, TTL in seconds). -/
structure CacheBackend where
  available : Bool
  getFails : Bool
  setFails : Bool
  store : List (List Char × ConsolidatedEnrichment × Nat)

/-- Value stored under `key`, if any. -/
def store_lookup (store : List (List Char × ConsolidatedEnrichment × Nat))
    (key : List Char) : Option ConsolidatedEnrichment :=
  (store.find? (fun e => e.1 == key)).map (fun e => e.2.1)

/-- Redis `SET`: overwrite the binding of `key` (drop any previous one). -/
def store_set (store : List (List Char × ConsolidatedEnrichment × Nat))
    (key : List Char) (val : ConsolidatedEnrichment) (ttl : Nat) :
    List (List Char × ConsolidatedEnrichment × Nat) :=
  (key, val, ttl) :: store.eraseP (fun e => e.1 == key)

namespace CacheService

/-- `CacheService.DEFAULT_TTL` (24 hours). -/
def DEFAULT_TTL : Nat := 86400

/-- `CacheService.PREFIX_ENRICHMENT`. -/
def PREFIX_ENRICHMENT : List Char := chars "enrich"

/-- `CacheService._make_key`: `f"leadforge:{prefix}:{identifier}"`. -/
def make_key (pfx identifier : List Char) : List Char :=
  chars "leadforge:" ++ pfx ++ chars ":" ++ identifier

/-- `CacheService.get`: attempt `redis.get(key)`; a backend error is caught and
degrades to `None`. Returns the result together with the attempted backend operation. -/
def get (b : CacheBackend) (pfx identifier : List Char) :
    Option ConsolidatedEnrichment × List CacheOp :=
  let key := make_key pfx identifier
  if b.getFails then (none, [CacheOp.read key])
  else (store_lookup b.store key, [CacheOp.read key])

/-- `CacheService.set`: attempt `redis.set(key, data, ex=ttl or DEFAULT_TTL)`; a
backend error is caught and degrades to a no-op. Returns the new backend state together
with the attempted backend operation. -/
def set (b : CacheBackend) (pfx identifier : List Char) (data : ConsolidatedEnrichment)
    (ttl : Option Nat) : CacheBackend × List CacheOp :=
  let key := make_key pfx identifier
  let t := ttl.getD DEFAULT_TTL
  if b.setFails then (b, [CacheOp.write key t])
  else ({ b with store := store_set b.store key data t }, [CacheOp.write key t])

/-- `CacheService.get_enrichment(domain)`. -/
def get_enrichment (b : CacheBackend) (domain : List Char) :
    Option ConsolidatedEnrichment × List CacheOp :=
  get b PREFIX_ENRICHMENT domain

/-- `CacheService.set_enrichment(domain, data)`: TTL 7 days (604800 seconds). -/
def set_enrichment (b : CacheBackend) (domain : List Char) (data : ConsolidatedEnrichment) :
    CacheBackend × List CacheOp :=
  set b PREFIX_ENRICHMENT domain data (some 604800)

end CacheService

/-!
## `app/services/enrichment/service.py`
-/

namespace EnrichmentService

/-- `self.providers` built in `EnrichmentService.__init__`: the fixed, ordered provider
list (the two HTTP providers are parameterized by their request outcomes). -/
def providers (webNet dnsNet : Except (List Char) HttpResponse) : List EnrichmentProvider :=
  [EmailAnalysisProvider.provider, WebScrapingProvider.provider webNet,
   DnsProvider.provider dnsNet]

/-- The provider loop of `_enrich_full`: for each provider in order invoke
`safe_enrich(email, domain, current_data=consolidated)`, append its result snapshot,
and on success merge its data into `consolidated` and bump the success counter.
Returns (final consolidated, result snapshots in order, success count). -/
def run_providers (email domain : List Char) :
    List EnrichmentProvider → Dict → Dict × List EnrichmentResult × Nat
  | [], consolidated => (consolidated, [], 0)
  | p :: ps, consolidated =>
      let r := p.safe_enrich email domain consolidated
      let rest := run_providers email domain ps
        (if r.success then dictUpdate consolidated r.data else consolidated)
      (rest.1, r :: rest.2.1, (if r.success then 1 else 0) + rest.2.2)

/-- `EnrichmentService._enrich_full`: run all providers (no cache) and package the
consolidated result with stats `{total_providers, successful, failed}` and
`from_cache=False`. -/
def enrich_full (email domain : List Char)
    (webNet dnsNet : Except (List Char) HttpResponse) : ConsolidatedEnrichment :=
  let run := run_providers email domain (providers webNet dnsNet) []
  { provider_results := run.2.1
    consolidated := run.1
    stats :=
      { total_providers := (providers webNet dnsNet).length
        successful := run.2.2
        failed := (providers webNet dnsNet).length - run.2.2 }
    from_cache := false }

/-- `EnrichmentService._enrich_with_cache`: run a fresh `EmailAnalysisProvider` alone
(with empty `current_data`), merge its data (when successful) over the cached
`consolidated` mapping, and return the cached `provider_results` and `stats` verbatim
with `from_cache=True`. -/
def enrich_with_cache (email domain : List Char)
    (cached_data : ConsolidatedEnrichment) : ConsolidatedEnrichment :=
  let email_result := EmailAnalysisProvider.provider.safe_enrich email domain []
  { provider_results := cached_data.provider_results
    consolidated :=
      if email_result.success then dictUpdate cached_data.consolidated email_result.data
      else cached_data.consolidated
    stats := cached_data.stats
    from_cache := true }

/-- The domain derivation on service.py line 39: `email.split("@")[1].lower()`.
`None` models the `IndexError` raised when the email contains no `"@"`. -/
def extract_domain (email : List Char) : Option (List Char) :=
  ((splitOnChar '@' email).get? 1).map (List.map Char.toLower)

/-- `EnrichmentService.enrich`, the public operation. The result carries the
consolidated enrichment, the cache backend state after the call, and the trace of
attempted backend operations. `Except.error` models an exception escaping to the
caller (the `IndexError` of the domain split; every provider call is already isolated
by `safe_enrich`, and every cache access catches backend errors internally).
`_get_cache()` is called once before the read and once before the write; its
availability is modelled as stable within one call. -/
def enrich (email : List Char) (b : CacheBackend)
    (webNet dnsNet : Except (List Char) HttpResponse) :
    Except (List Char) (ConsolidatedEnrichment × CacheBackend × List CacheOp) :=
  match extract_domain email with
  | none => Except.error (chars "list index out of range")
  | some domain =>
      if domain ∈ GENERIC_DOMAINS then
        Except.ok (enrich_full email domain webNet dnsNet, b, [])
      else if b.available then
        let g := CacheService.get_enrichment b domain
        match g.1 with
        | some cached_data =>
            Except.ok (enrich_with_cache email domain cached_data, b, g.2)
        | none =>
            let result := enrich_full email domain webNet dnsNet
            let st := CacheService.set_enrichment b domain result
            Except.ok (result, st.1, g.2 ++ st.2)
      else
        Except.ok (enrich_full email domain webNet dnsNet, b, [])

end EnrichmentService

/-!
## Helper lemmas
-/

theorem splitOnChar_of_not_mem (sep : Char) (l : List Char) (h : sep ∉ l) :
    splitOnChar sep l = [l] := by
  induction l with
  | nil => rfl
  | cons c rest ih =>
      have hc : ¬ c = sep := fun hcs => h (by simp [hcs])
      have hr : sep ∉ rest := fun hm => h (List.mem_cons_of_mem _ hm)
      simp [splitOnChar, ih hr, hc]

theorem splitOnChar_append (sep : Char) (a d : List Char) (ha : sep ∉ a) :
    splitOnChar sep (a ++ sep :: d) = a :: splitOnChar sep d := by
  induction a with
  | nil => simp [splitOnChar]
  | cons c rest ih =>
      have hc : ¬ c = sep := fun hcs => ha (by simp [hcs])
      have hr : sep ∉ rest := fun hm => ha (List.mem_cons_of_mem _ hm)
      simp [splitOnChar, ih hr, hc]

theorem splitOnChar_single (sep : Char) (a d : List Char) (ha : sep ∉ a) (hd : sep ∉ d) :
    splitOnChar sep (a ++ sep :: d) = [a, d] := by
  rw [splitOnChar_append sep a d ha, splitOnChar_of_not_mem sep d hd]

/-- The merge fold of `_enrich_full` as a function of the produced result snapshots:
successful results update the consolidated mapping in order. -/
def consolidate_from (d : Dict) : List EnrichmentResult → Dict
  | [] => d
  | r :: rs => consolidate_from (if r.success then dictUpdate d r.data else d) rs

theorem consolidate_from_append (d : Dict) (rs₁ rs₂ : List EnrichmentResult) :
    consolidate_from d (rs₁ ++ rs₂) = consolidate_from (consolidate_from d rs₁) rs₂ := by
  induction rs₁ generalizing d with
  | nil => rfl
  | cons r rs ih => simp [consolidate_from, ih]

theorem consolidate_from_lookup_of_none (d : Dict) (rs : List EnrichmentResult) (k : String)
    (h : ∀ r ∈ rs, r.success = true → dictLookup r.data k = none) :
    dictLookup (consolidate_from d rs) k = dictLookup d k := by
  induction rs generalizing d with
  | nil => rfl
  | cons r rs ih =>
      have hrest : ∀ r' ∈ rs, r'.success = true → dictLookup r'.data k = none :=
        fun r' hm => h r' (List.mem_cons_of_mem _ hm)
      by_cases hs : r.success = true
      · have hk : k ∉ r.data.map Prod.fst :=
          (dictLookup_eq_none_iff _ _).mp (h r (List.mem_cons_self _ _) hs)
        simp only [consolidate_from, hs, if_true]
        rw [ih _ hrest, dictLookup_dictUpdate_of_not_mem _ _ _ hk]
      · simp only [consolidate_from, hs, if_false]
        exact ih _ hrest

theorem run_providers_fst (email domain : List Char) (ps : List EnrichmentProvider) :
    ∀ d : Dict,
      (EnrichmentService.run_providers email domain ps d).1
        = consolidate_from d (EnrichmentService.run_providers email domain ps d).2.1 := by
  induction ps with
  | nil => intro d; rfl
  | cons p ps ih =>
      intro d
      simp only [EnrichmentService.run_providers, consolidate_from]
      exact ih _

theorem safe_enrich_email (email domain : List Char) (cur : Dict) :
    EnrichmentProvider.safe_enrich EmailAnalysisProvider.provider email domain cur
      = EmailAnalysisProvider.enrich email domain cur := rfl

theorem email_enrich_keys (email domain : List Char) (cur : Dict) :
    (EmailAnalysisProvider.enrich email domain cur).data.map Prod.fst
      = ["is_corporate_email", "email_local_part", "email_role_type",
         "name_from_email", "domain"] := rfl

theorem safe_enrich_web_name (webNet : Except (List Char) HttpResponse)
    (email domain : List Char) (cur : Dict) :
    (EnrichmentProvider.safe_enrich (WebScrapingProvider.provider webNet)
        email domain cur).provider = chars "web_scraping" := by
  unfold EnrichmentProvider.safe_enrich WebScrapingProvider.provider WebScrapingProvider.enrich
  by_cases h : domain ∈ GENERIC_DOMAINS
  · simp [h]
  · cases webNet <;> simp [h]

theorem safe_enrich_dns_name (dnsNet : Except (List Char) HttpResponse)
    (email domain : List Char) (cur : Dict) :
    (EnrichmentProvider.safe_enrich (DnsProvider.provider dnsNet)
        email domain cur).provider = chars "dns_info" := by
  unfold EnrichmentProvider.safe_enrich DnsProvider.provider DnsProvider.enrich
  by_cases h : domain ∈ GENERIC_DOMAINS
  · simp [h]
  · cases dnsNet <;> simp [h]

theorem web_enrich_generic (webNet : Except (List Char) HttpResponse)
    (email domain : List Char) (cur : Dict) (h : domain ∈ GENERIC_DOMAINS) :
    WebScrapingProvider.enrich webNet email domain cur
      = Except.ok
          { provider := chars "web_scraping", success := false, data := [],
            error := some (chars "Dominio genérico, no se hace scraping") } := by
  simp [WebScrapingProvider.enrich, h]

theorem dns_enrich_generic (dnsNet : Except (List Char) HttpResponse)
    (email domain : List Char) (cur : Dict) (h : domain ∈ GENERIC_DOMAINS) :
    DnsProvider.enrich dnsNet email domain cur
      = Except.ok
          { provider := chars "dns_info", success := false, data := [],
            error := some (chars "Dominio genérico, no se analiza") } := by
  simp [DnsProvider.enrich, h]

theorem web_enrich_ok (resp : HttpResponse) (email domain : List Char) (cur : Dict)
    (h : domain ∉ GENERIC_DOMAINS) :
    WebScrapingProvider.enrich (Except.ok resp) email domain cur
      = Except.ok
          { provider := chars "web_scraping", success := true,
            data := WebScrapingProvider.buildData resp, error := none } := by
  simp [WebScrapingProvider.enrich, h]

theorem dns_enrich_ok (resp : HttpResponse) (email domain : List Char) (cur : Dict)
    (h : domain ∉ GENERIC_DOMAINS) :
    DnsProvider.enrich (Except.ok resp) email domain cur
      = Except.ok
          { provider := chars "dns_info", success := true,
            data := DnsProvider.buildData resp, error := none } := by
  simp [DnsProvider.enrich, h]

theorem email_enrich_success (email domain : List Char) (cur : Dict) :
    (EmailAnalysisProvider.enrich email domain cur).success = true := rfl

theorem web_buildData_status (resp : HttpResponse) :
    dictLookup (WebScrapingProvider.buildData resp) "website_status"
      = some (Value.nat resp.status) := by
  unfold WebScrapingProvider.buildData
  repeat' split
  all_goals simp [dictLookup]

theorem enrich_full_generic_consolidated (email domain : List Char)
    (webNet dnsNet : Except (List Char) HttpResponse) (h : domain ∈ GENERIC_DOMAINS) :
    (EnrichmentService.enrich_full email domain webNet dnsNet).consolidated
      = (EmailAnalysisProvider.enrich email domain []).data := by
  unfold EnrichmentService.enrich_full EnrichmentService.providers
  simp only [EnrichmentService.run_providers, EnrichmentProvider.safe_enrich,
    EmailAnalysisProvider.provider, WebScrapingProvider.provider, DnsProvider.provider,
    web_enrich_generic _ _ _ _ h, dns_enrich_generic _ _ _ _ h,
    email_enrich_success, if_true, Bool.false_eq_true, if_false]
  rw [dictUpdate_nil _ (by rw [email_enrich_keys]; decide)]

theorem enrich_full_generic_successes (email domain : List Char)
    (webNet dnsNet : Except (List Char) HttpResponse) (h : domain ∈ GENERIC_DOMAINS) :
    (EnrichmentService.enrich_full email domain webNet dnsNet).provider_results.map
        EnrichmentResult.success = [true, false, false] := by
  unfold EnrichmentService.enrich_full EnrichmentService.providers
  simp only [EnrichmentService.run_providers, EnrichmentProvider.safe_enrich,
    EmailAnalysisProvider.provider, WebScrapingProvider.provider, DnsProvider.provider,
    web_enrich_generic _ _ _ _ h, dns_enrich_generic _ _ _ _ h]
  simp [email_enrich_success]

theorem extract_domain_decomp (a d : List Char) (ha : '@' ∉ a) (hd : '@' ∉ d) :
    EnrichmentService.extract_domain (a ++ '@' :: d) = some (d.map Char.toLower) := by
  unfold EnrichmentService.extract_domain
  rw [splitOnChar_single '@' a d ha hd]
  rfl

theorem extract_domain_of_no_at (email : List Char) (h : '@' ∉ email) :
    EnrichmentService.extract_domain email = none := by
  unfold EnrichmentService.extract_domain
  rw [splitOnChar_of_not_mem '@' email h]
  rfl

theorem local_part_decomp (a d : List Char) (ha : '@' ∉ a) (hd : '@' ∉ d) :
    (splitOnChar '@' (a ++ '@' :: d)).headD [] = a := by
  rw [splitOnChar_single '@' a d ha hd]
  rfl

theorem email_enrich_provider_name (email domain : List Char) (cur : Dict) :
    (EmailAnalysisProvider.enrich email domain cur).provider = chars "email_analysis" := rfl

theorem run_providers_length (email domain : List Char) (ps : List EnrichmentProvider) :
    ∀ d : Dict, (EnrichmentService.run_providers email domain ps d).2.1.length = ps.length := by
  induction ps with
  | nil => intro d; rfl
  | cons p ps ih =>
      intro d
      simp only [EnrichmentService.run_providers, List.length_cons]
      rw [ih]

/-!
## Concrete fixtures used by witnesses and counterexamples
-/

/-- A completed HTTP exchange whose final status is 404 (non-2xx, no exception raised). -/
def notFoundResponse : HttpResponse :=
  { status := 404, text := chars "", headers := [], url := chars "https://startup.io",
    elapsed_ms := 12 }

/-- A completed, successful HTTP exchange. -/
def okResponse : HttpResponse :=
  { status := 200, text := chars "<html><title>Startup</title></html>",
    headers := [(chars "server", chars "nginx")], url := chars "https://startup.io",
    elapsed_ms := 42 }

/-- A reachable, healthy, empty cache backend. -/
def emptyBackend : CacheBackend :=
  { available := true, getFails := false, setFails := false, store := [] }

/-- A cached consolidated enrichment for the domain `startup.io`. -/
def sampleCachedValue : ConsolidatedEnrichment :=
  { provider_results :=
      [{ provider := chars "email_analysis", success := true, data := [], error := none }]
    consolidated := [("technologies", Value.list [Value.str (chars "React")])]
    stats := { total_providers := 3, successful := 3, failed := 0 }
    from_cache := false }

/-- A healthy backend holding `sampleCachedValue` under the enrichment key for
`startup.io`. -/
def hitBackend : CacheBackend :=
  { available := true, getFails := false, setFails := false,
    store := [(CacheService.make_key CacheService.PREFIX_ENRICHMENT (chars "startup.io"),
      sampleCachedValue, 604800)] }

/-!
## Claims
-/

/-- C1, counterexample: the Web-Content Scraper's HTTP request completes with the
non-2xx status 404 and the provider result nevertheless has success = true, refuting
the claim that a non-2xx response yields success = false. -/
theorem C1_counterexample_non2xx_is_success :
    notFoundResponse.status = 404 ∧
    (EnrichmentProvider.safe_enrich (WebScrapingProvider.provider (Except.ok notFoundResponse))
        (chars "a@startup.io") (chars "startup.io") []).success = true :=
  ⟨rfl, by decide⟩

/-- C1 (amended): for a non-generic domain, a raised transport error or timeout in the
Web-Content Scraper's or Header Fingerprinter's HTTP request yields success = false
(with the exception message as the error) via the protective wrapper, and the full run
still produces all three provider results; a completed HTTP exchange with a non-2xx
status is NOT a provider failure: both providers return success = true, the scraper
recording the status verbatim under `website_status`. -/
theorem C1_amended_exception_fails_non2xx_succeeds
    (email domain : List Char) (cur : Dict) (msg : List Char) (resp : HttpResponse)
    (dnsNet : Except (List Char) HttpResponse)
    (hg : domain ∉ GENERIC_DOMAINS) :
    (EnrichmentProvider.safe_enrich (WebScrapingProvider.provider (Except.error msg))
        email domain cur
      = { provider := chars "web_scraping", success := false, data := [],
          error := some msg }) ∧
    (EnrichmentProvider.safe_enrich (DnsProvider.provider (Except.error msg))
        email domain cur
      = { provider := chars "dns_info", success := false, data := [],
          error := some msg }) ∧
    (EnrichmentService.enrich_full email domain (Except.error msg)
        dnsNet).provider_results.length = 3 ∧
    (WebScrapingProvider.enrich (Except.ok resp) email domain cur
      = Except.ok
          { provider := chars "web_scraping", success := true,
            data := WebScrapingProvider.buildData resp, error := none }) ∧
    dictLookup (WebScrapingProvider.buildData resp) "website_status"
      = some (Value.nat resp.status) ∧
    (DnsProvider.enrich (Except.ok resp) email domain cur
      = Except.ok
          { provider := chars "dns_info", success := true,
            data := DnsProvider.buildData resp, error := none }) := by
  refine ⟨?_, ?_, ?_, web_enrich_ok resp email domain cur hg,
    web_buildData_status resp, dns_enrich_ok resp email domain cur hg⟩
  · unfold EnrichmentProvider.safe_enrich WebScrapingProvider.provider
      WebScrapingProvider.enrich
    simp [hg]
  · unfold EnrichmentProvider.safe_enrich DnsProvider.provider DnsProvider.enrich
    simp [hg]
  · unfold EnrichmentService.enrich_full
    rw [run_providers_length]
    rfl

/-- C1, witness: the amended statement instantiated at a timed-out scraper request and
a 404 response on the domain `startup.io`. -/
theorem C1_amended_witness :
    (EnrichmentProvider.safe_enrich
        (WebScrapingProvider.provider (Except.error (chars "Request timeout")))
        (chars "a@startup.io") (chars "startup.io") []
      = { provider := chars "web_scraping", success := false, data := [],
          error := some (chars "Request timeout") }) ∧
    (EnrichmentProvider.safe_enrich
        (DnsProvider.provider (Except.error (chars "Request timeout")))
        (chars "a@startup.io") (chars "startup.io") []
      = { provider := chars "dns_info", success := false, data := [],
          error := some (chars "Request timeout") }) ∧
    (EnrichmentService.enrich_full (chars "a@startup.io") (chars "startup.io")
        (Except.error (chars "Request timeout"))
        (Except.ok okResponse)).provider_results.length = 3 ∧
    (WebScrapingProvider.enrich (Except.ok notFoundResponse) (chars "a@startup.io")
        (chars "startup.io") []
      = Except.ok
          { provider := chars "web_scraping", success := true,
            data := WebScrapingProvider.buildData notFoundResponse, error := none }) ∧
    dictLookup (WebScrapingProvider.buildData notFoundResponse) "website_status"
      = some (Value.nat notFoundResponse.status) ∧
    (DnsProvider.enrich (Except.ok notFoundResponse) (chars "a@startup.io")
        (chars "startup.io") []
      = Except.ok
          { provider := chars "dns_info", success := true,
            data := DnsProvider.buildData notFoundResponse, error := none }) :=
  C1_amended_exception_fails_non2xx_succeeds (chars "a@startup.io") (chars "startup.io")
    [] (chars "Request timeout") notFoundResponse (Except.ok okResponse) (by decide)

/-- C2: on a cache hit for a non-generic domain, `enrich` re-runs only the
Email-Pattern Analyzer, merges its (always successful) data on top of the cached
consolidated mapping, and returns immediately with from_cache = true, the cached
provider_results and stats reused verbatim, the backend unchanged and exactly one
backend read attempted; on key conflicts the fresh email-analysis value wins. -/
theorem C2_cache_hit_email_reanalysis (a d : List Char) (b : CacheBackend)
    (webNet dnsNet : Except (List Char) HttpResponse)
    (cached_data : ConsolidatedEnrichment)
    (ha : '@' ∉ a) (hd : '@' ∉ d) (hg : d.map Char.toLower ∉ GENERIC_DOMAINS)
    (hav : b.available = true) (hgf : b.getFails = false)
    (hhit : store_lookup b.store
        (CacheService.make_key CacheService.PREFIX_ENRICHMENT (d.map Char.toLower))
        = some cached_data) :
    (EnrichmentService.enrich (a ++ '@' :: d) b webNet dnsNet
      = Except.ok
          ({ provider_results := cached_data.provider_results
             consolidated := dictUpdate cached_data.consolidated
               (EmailAnalysisProvider.enrich (a ++ '@' :: d) (d.map Char.toLower) []).data
             stats := cached_data.stats
             from_cache := true },
           b,
           [CacheOp.read (CacheService.make_key CacheService.PREFIX_ENRICHMENT
              (d.map Char.toLower))])) ∧
    (∀ (k : String) (v : Value),
        dictLookup (EmailAnalysisProvider.enrich (a ++ '@' :: d) (d.map Char.toLower) []).data
            k = some v →
        dictLookup (dictUpdate cached_data.consolidated
            (EmailAnalysisProvider.enrich (a ++ '@' :: d) (d.map Char.toLower) []).data) k
          = some v) := by
  constructor
  · unfold EnrichmentService.enrich
    rw [extract_domain_decomp a d ha hd]
    simp only [hg, if_false, hav, if_true]
    unfold CacheService.get_enrichment CacheService.get
    simp only [hgf, Bool.false_eq_true, if_false, hhit]
    unfold EnrichmentService.enrich_with_cache
    simp [EnrichmentProvider.safe_enrich, EmailAnalysisProvider.provider,
      email_enrich_success]
  · intro k v hv
    exact dictLookup_dictUpdate_of_some _ _ _ _ (by rw [email_enrich_keys]; decide) hv

/-- C2, witness: the cache-hit path instantiated at `info@startup.io` against a backend
holding `sampleCachedValue` for `startup.io`. -/
theorem C2_witness :
    EnrichmentService.enrich (chars "info" ++ '@' :: chars "startup.io") hitBackend
        (Except.ok okResponse) (Except.ok okResponse)
      = Except.ok
          ({ provider_results := sampleCachedValue.provider_results
             consolidated := dictUpdate sampleCachedValue.consolidated
               (EmailAnalysisProvider.enrich (chars "info" ++ '@' :: chars "startup.io")
                 ((chars "startup.io").map Char.toLower) []).data
             stats := sampleCachedValue.stats
             from_cache := true },
           hitBackend,
           [CacheOp.read (CacheService.make_key CacheService.PREFIX_ENRICHMENT
              ((chars "startup.io").map Char.toLower))]) :=
  (C2_cache_hit_email_reanalysis (chars "info") (chars "startup.io") hitBackend
    (Except.ok okResponse) (Except.ok okResponse) sampleCachedValue
    (by decide) (by decide) (by decide) rfl rfl rfl).1

/-- C3: for an email whose (lower-cased) domain is in the generic set, `enrich`
performs no cache read and no cache write: the backend-operation trace is empty and the
backend state is returned unchanged. -/
theorem C3_generic_domain_no_cache_io (a d : List Char) (b : CacheBackend)
    (webNet dnsNet : Except (List Char) HttpResponse)
    (ha : '@' ∉ a) (hd : '@' ∉ d) (hg : d.map Char.toLower ∈ GENERIC_DOMAINS) :
    EnrichmentService.enrich (a ++ '@' :: d) b webNet dnsNet
      = Except.ok (EnrichmentService.enrich_full (a ++ '@' :: d) (d.map Char.toLower)
          webNet dnsNet, b, []) := by
  unfold EnrichmentService.enrich
  rw [extract_domain_decomp a d ha hd]
  simp [hg]

/-- C3, witness: the generic-domain path instantiated at `user@gmail.com`. -/
theorem C3_witness :
    EnrichmentService.enrich (chars "user" ++ '@' :: chars "gmail.com") emptyBackend
        (Except.ok okResponse) (Except.ok okResponse)
      = Except.ok (EnrichmentService.enrich_full (chars "user" ++ '@' :: chars "gmail.com")
          ((chars "gmail.com").map Char.toLower) (Except.ok okResponse)
          (Except.ok okResponse), emptyBackend, []) :=
  C3_generic_domain_no_cache_io (chars "user") (chars "gmail.com") emptyBackend
    (Except.ok okResponse) (Except.ok okResponse) (by decide) (by decide) (by decide)

/-- C4: (i) a full run invokes the providers in the fixed order Email-Pattern Analyzer,
Web-Content Scraper, Header Fingerprinter, whatever the network outcomes; (ii) the
consolidated mapping is exactly the in-order merge fold of the produced results; and
(iii) in that fold, when a later successful result is the last one to bind a key, the
consolidated mapping holds its value (last successful provider wins). -/
theorem C4_provider_order_and_merge_precedence :
    (∀ (email domain : List Char) (webNet dnsNet : Except (List Char) HttpResponse),
        (EnrichmentService.enrich_full email domain webNet dnsNet).provider_results.map
            EnrichmentResult.provider
          = [chars "email_analysis", chars "web_scraping", chars "dns_info"]) ∧
    (∀ (email domain : List Char) (ps : List EnrichmentProvider) (d : Dict),
        (EnrichmentService.run_providers email domain ps d).1
          = consolidate_from d (EnrichmentService.run_providers email domain ps d).2.1) ∧
    (∀ (rs₁ rs₂ : List EnrichmentResult) (r : EnrichmentResult) (k : String) (v : Value),
        r.success = true → (r.data.map Prod.fst).Nodup →
        dictLookup r.data k = some v →
        (∀ r' ∈ rs₂, r'.success = true → dictLookup r'.data k = none) →
        dictLookup (consolidate_from [] (rs₁ ++ r :: rs₂)) k = some v) := by
  refine ⟨?_, ?_, ?_⟩
  · intro email domain webNet dnsNet
    unfold EnrichmentService.enrich_full EnrichmentService.providers
    simp only [EnrichmentService.run_providers, List.map_cons, List.map_nil,
      safe_enrich_web_name, safe_enrich_dns_name, safe_enrich_email]
    simp [email_enrich_provider_name]
  · intro email domain ps d
    exact run_providers_fst email domain ps d
  · intro rs₁ rs₂ r k v hs hn hv hnone
    rw [consolidate_from_append]
    have hstep : consolidate_from (consolidate_from [] rs₁) (r :: rs₂)
        = consolidate_from (dictUpdate (consolidate_from [] rs₁) r.data) rs₂ := by
      simp [consolidate_from, hs]
    rw [hstep, consolidate_from_lookup_of_none _ _ _ hnone]
    exact dictLookup_dictUpdate_of_some _ _ _ _ hn hv

/-- C4, witness: two successful results bind the key `"k"`; the merged mapping holds the
later result's value. -/
theorem C4_witness :
    dictLookup (consolidate_from []
        [{ provider := chars "p1", success := true, data := [("k", Value.nat 1)],
           error := none },
         { provider := chars "p2", success := true, data := [("k", Value.nat 2)],
           error := none }]) "k" = some (Value.nat 2) :=
  C4_provider_order_and_merge_precedence.2.2
    [{ provider := chars "p1", success := true, data := [("k", Value.nat 1)],
       error := none }]
    []
    { provider := chars "p2", success := true, data := [("k", Value.nat 2)], error := none }
    "k" (Value.nat 2) rfl (by decide) rfl (by simp)

/-- C5: the protective wrapper never raises — whenever the underlying `enrich` raises,
`safe_enrich` returns an EnrichmentResult with success = false and the exception message
as the error — and the remaining providers still run and contribute to stats: with the
scraper's request timed out and the fingerprinter succeeding, the run completes with all
three results and stats failed = 1. -/
theorem C5_safe_enrich_isolation :
    (∀ (p : EnrichmentProvider) (email domain : List Char) (cur : Dict) (msg : List Char),
        p.enrich email domain cur = Except.error msg →
        p.safe_enrich email domain cur
          = { provider := p.name, success := false, data := [], error := some msg }) ∧
    (∀ (email domain msg : List Char) (resp : HttpResponse),
        domain ∉ GENERIC_DOMAINS →
        (EnrichmentService.enrich_full email domain (Except.error msg)
            (Except.ok resp)).provider_results.map EnrichmentResult.success
          = [true, false, true] ∧
        (EnrichmentService.enrich_full email domain (Except.error msg)
            (Except.ok resp)).stats
          = { total_providers := 3, successful := 2, failed := 1 }) := by
  constructor
  · intro p email domain cur msg h
    unfold EnrichmentProvider.safe_enrich
    rw [h]
  · intro email domain msg resp hg
    unfold EnrichmentService.enrich_full EnrichmentService.providers
    simp only [EnrichmentService.run_providers, EnrichmentProvider.safe_enrich,
      EmailAnalysisProvider.provider, WebScrapingProvider.provider, DnsProvider.provider,
      WebScrapingProvider.enrich, dns_enrich_ok _ _ _ _ hg, hg, if_false,
      email_enrich_success]
    simp [email_enrich_success]

/-- C5, witness: the pipeline-isolation part instantiated at a timed-out scraper request
on `startup.io`. -/
theorem C5_witness :
    (EnrichmentService.enrich_full (chars "a@startup.io") (chars "startup.io")
        (Except.error (chars "Request timeout"))
        (Except.ok okResponse)).provider_results.map EnrichmentResult.success
      = [true, false, true] ∧
    (EnrichmentService.enrich_full (chars "a@startup.io") (chars "startup.io")
        (Except.error (chars "Request timeout")) (Except.ok okResponse)).stats
      = { total_providers := 3, successful := 2, failed := 1 } :=
  C5_safe_enrich_isolation.2 (chars "a@startup.io") (chars "startup.io")
    (chars "Request timeout") okResponse (by decide)

/-- C6: for a generic domain the Web-Content Scraper and the Header Fingerprinter each
return success = false with their explanatory skip error whatever the network outcome
(no HTTP request is consulted), and in the full run only the Email-Pattern Analyzer
contributes to the consolidated mapping. -/
theorem C6_generic_domain_skip (email domain : List Char) (cur : Dict)
    (webNet dnsNet : Except (List Char) HttpResponse) (h : domain ∈ GENERIC_DOMAINS) :
    WebScrapingProvider.enrich webNet email domain cur
      = Except.ok
          { provider := chars "web_scraping", success := false, data := [],
            error := some (chars "Dominio genérico, no se hace scraping") } ∧
    DnsProvider.enrich dnsNet email domain cur
      = Except.ok
          { provider := chars "dns_info", success := false, data := [],
            error := some (chars "Dominio genérico, no se analiza") } ∧
    (EnrichmentService.enrich_full email domain webNet dnsNet).consolidated
      = (EmailAnalysisProvider.enrich email domain []).data ∧
    (EnrichmentService.enrich_full email domain webNet dnsNet).provider_results.map
        EnrichmentResult.success = [true, false, false] :=
  ⟨web_enrich_generic webNet email domain cur h,
   dns_enrich_generic dnsNet email domain cur h,
   enrich_full_generic_consolidated email domain webNet dnsNet h,
   enrich_full_generic_successes email domain webNet dnsNet h⟩

/-- C6, witness: `user@gmail.com` with both network outcomes being raised errors — the
skip results and the email-only consolidation are produced without consulting them. -/
theorem C6_witness :
    WebScrapingProvider.enrich (Except.error (chars "unreachable")) (chars "user@gmail.com")
        (chars "gmail.com") []
      = Except.ok
          { provider := chars "web_scraping", success := false, data := [],
            error := some (chars "Dominio genérico, no se hace scraping") } ∧
    DnsProvider.enrich (Except.error (chars "unreachable")) (chars "user@gmail.com")
        (chars "gmail.com") []
      = Except.ok
          { provider := chars "dns_info", success := false, data := [],
            error := some (chars "Dominio genérico, no se analiza") } ∧
    (EnrichmentService.enrich_full (chars "user@gmail.com") (chars "gmail.com")
        (Except.error (chars "unreachable")) (Except.error (chars "unreachable"))).consolidated
      = (EmailAnalysisProvider.enrich (chars "user@gmail.com") (chars "gmail.com") []).data ∧
    (EnrichmentService.enrich_full (chars "user@gmail.com") (chars "gmail.com")
        (Except.error (chars "unreachable"))
        (Except.error (chars "unreachable"))).provider_results.map
        EnrichmentResult.success = [true, false, false] :=
  C6_generic_domain_skip (chars "user@gmail.com") (chars "gmail.com") []
    (Except.error (chars "unreachable")) (Except.error (chars "unreachable")) (by decide)

/-- Modelled from the spec's words ("domain extraction is substring after `@`"):
everything after the first `'@'` of the email. Compared against the source's
`extract_domain` (`email.split("@")[1].lower()`). -/
def afterFirstAt (email : List Char) : List Char :=
  (email.dropWhile (fun c => c != '@')).tail

theorem afterFirstAt_append (a d : List Char) (ha : '@' ∉ a) :
    afterFirstAt (a ++ '@' :: d) = d := by
  induction a with
  | nil => simp [afterFirstAt]
  | cons c rest ih =>
      have hc : c ≠ '@' := fun hcs => ha (by simp [hcs])
      have hr : '@' ∉ rest := fun hm => ha (List.mem_cons_of_mem _ hm)
      simpa [afterFirstAt, hc] using ih hr

/-- C7, counterexample: for the email `"x@A@B"` (which contains `"@"`), the domain used
by the orchestrator is `"a"` — element 1 of the split — and not the lower-cased
substring after `"@"`, which is `"a@b"`; the claim's equation fails at this input. -/
theorem C7_counterexample_double_at :
    EnrichmentService.extract_domain (chars "x@A@B")
      ≠ some ((afterFirstAt (chars "x@A@B")).map Char.toLower) := by
  decide

/-- C7 (amended): for every email with exactly one `"@"` (written `a ++ '@' :: d` with
`'@'` in neither part), the domain used by the orchestrator is the substring after
`"@"`, lower-cased (in general it is the segment between the first and second `"@"`),
while the local part reported as `email_local_part` is the text before the `"@"` with
its original case preserved. -/
theorem C7_amended_domain_and_local_part (a d domain : List Char) (cur : Dict)
    (ha : '@' ∉ a) (hd : '@' ∉ d) :
    EnrichmentService.extract_domain (a ++ '@' :: d) = some (d.map Char.toLower) ∧
    afterFirstAt (a ++ '@' :: d) = d ∧
    dictLookup (EmailAnalysisProvider.enrich (a ++ '@' :: d) domain cur).data
      "email_local_part" = some (Value.str a) := by
  refine ⟨extract_domain_decomp a d ha hd, afterFirstAt_append a d ha, ?_⟩
  unfold EmailAnalysisProvider.enrich
  simp only [local_part_decomp a d ha hd]
  simp [dictLookup]

/-- C7, witness: the amended statement instantiated at `Maria.Lopez@Startup.IO` — the
domain is lower-cased, the local part keeps its case. -/
theorem C7_witness :
    EnrichmentService.extract_domain (chars "Maria.Lopez" ++ '@' :: chars "Startup.IO")
      = some ((chars "Startup.IO").map Char.toLower) ∧
    afterFirstAt (chars "Maria.Lopez" ++ '@' :: chars "Startup.IO") = chars "Startup.IO" ∧
    dictLookup (EmailAnalysisProvider.enrich
        (chars "Maria.Lopez" ++ '@' :: chars "Startup.IO") (chars "startup.io") []).data
      "email_local_part" = some (Value.str (chars "Maria.Lopez")) :=
  C7_amended_domain_and_local_part (chars "Maria.Lopez") (chars "Startup.IO")
    (chars "startup.io") [] (by decide) (by decide)

/-- C8: the name guess is absent exactly when the local part contains neither `"."` nor
`"_"`; when `"."` is present the local part is split on `"."`, else on `"_"`, each
segment capitalized and joined with spaces; in particular `"maria.lopez"` yields
`"Maria Lopez"`, also as the `name_from_email` entry of the provider's data. -/
theorem C8_name_guess_splits_and_capitalizes :
    (∀ lp : List Char,
        EmailAnalysisProvider.name_guess lp = none ↔ ('.' ∉ lp ∧ '_' ∉ lp)) ∧
    (∀ lp : List Char, '.' ∈ lp →
        EmailAnalysisProvider.name_guess lp
          = some (joinSpace ((splitOnChar '.' lp).map pyCapitalize))) ∧
    (∀ lp : List Char, '.' ∉ lp → '_' ∈ lp →
        EmailAnalysisProvider.name_guess lp
          = some (joinSpace ((splitOnChar '_' lp).map pyCapitalize))) ∧
    EmailAnalysisProvider.name_guess (chars "maria.lopez") = some (chars "Maria Lopez") ∧
    dictLookup (EmailAnalysisProvider.enrich (chars "maria.lopez@startup.io")
        (chars "startup.io") []).data "name_from_email"
      = some (Value.str (chars "Maria Lopez")) := by
  refine ⟨?_, ?_, ?_, by decide, rfl⟩
  · intro lp
    unfold EmailAnalysisProvider.name_guess
    by_cases h1 : '.' ∈ lp
    · simp [h1]
    · by_cases h2 : '_' ∈ lp <;> simp [h1, h2]
  · intro lp h1
    unfold EmailAnalysisProvider.name_guess
    simp [h1]
  · intro lp h1 h2
    unfold EmailAnalysisProvider.name_guess
    simp [h1, h2]

/-- C8, witness: a local part with neither separator produces no guess. -/
theorem C8_witness : EmailAnalysisProvider.name_guess (chars "bob") = none :=
  (C8_name_guess_splits_and_capitalizes.1 (chars "bob")).mpr (by decide)

/-- C9: after a full run on a non-generic domain, the result is written to the cache
before `enrich` returns, under the key `"leadforge:enrich:{domain}"` with TTL 604800
seconds (7 days); a failing backend write degrades to a no-op, a missing backend skips
caching entirely, and in every case the enrichment result is still returned. -/
theorem C9_cache_write_key_ttl_degradation (a d : List Char) (b : CacheBackend)
    (webNet dnsNet : Except (List Char) HttpResponse)
    (ha : '@' ∉ a) (hd : '@' ∉ d) (hg : d.map Char.toLower ∉ GENERIC_DOMAINS) :
    CacheService.make_key CacheService.PREFIX_ENRICHMENT (d.map Char.toLower)
      = chars "leadforge:enrich:" ++ d.map Char.toLower ∧
    (b.available = true →
      (CacheService.get_enrichment b (d.map Char.toLower)).1 = none →
      EnrichmentService.enrich (a ++ '@' :: d) b webNet dnsNet
        = Except.ok
            (EnrichmentService.enrich_full (a ++ '@' :: d) (d.map Char.toLower)
               webNet dnsNet,
             (if b.setFails then b
              else { b with store := (store_set b.store
                  (CacheService.make_key CacheService.PREFIX_ENRICHMENT
                    (d.map Char.toLower))
                  (EnrichmentService.enrich_full (a ++ '@' :: d) (d.map Char.toLower)
                    webNet dnsNet) 604800) }),
             [CacheOp.read (CacheService.make_key CacheService.PREFIX_ENRICHMENT
                (d.map Char.toLower)),
              CacheOp.write (CacheService.make_key CacheService.PREFIX_ENRICHMENT
                (d.map Char.toLower)) 604800])) ∧
    (b.available = false →
      EnrichmentService.enrich (a ++ '@' :: d) b webNet dnsNet
        = Except.ok
            (EnrichmentService.enrich_full (a ++ '@' :: d) (d.map Char.toLower)
               webNet dnsNet, b, [])) := by
  refine ⟨rfl, ?_, ?_⟩
  · intro hav hmiss
    unfold EnrichmentService.enrich
    rw [extract_domain_decomp a d ha hd]
    simp only [hg, if_false, hav, if_true, hmiss]
    unfold CacheService.set_enrichment CacheService.set CacheService.get_enrichment
      CacheService.get
    by_cases hsf : b.setFails <;> by_cases hgf : b.getFails <;> simp [hsf, hgf, hav]
  · intro hav
    unfold EnrichmentService.enrich
    rw [extract_domain_decomp a d ha hd]
    simp [hg, hav]

/-- C9, witness: the write-after-full-run equation instantiated at
`maria.lopez@startup.io` against the healthy empty backend. -/
theorem C9_witness :
    EnrichmentService.enrich (chars "maria.lopez" ++ '@' :: chars "startup.io")
        emptyBackend (Except.ok okResponse) (Except.ok okResponse)
      = Except.ok
          (EnrichmentService.enrich_full (chars "maria.lopez" ++ '@' :: chars "startup.io")
             ((chars "startup.io").map Char.toLower) (Except.ok okResponse)
             (Except.ok okResponse),
           (if emptyBackend.setFails then emptyBackend
            else { emptyBackend with store := (store_set emptyBackend.store
                (CacheService.make_key CacheService.PREFIX_ENRICHMENT
                  ((chars "startup.io").map Char.toLower))
                (EnrichmentService.enrich_full
                  (chars "maria.lopez" ++ '@' :: chars "startup.io")
                  ((chars "startup.io").map Char.toLower) (Except.ok okResponse)
                  (Except.ok okResponse)) 604800) }),
           [CacheOp.read (CacheService.make_key CacheService.PREFIX_ENRICHMENT
              ((chars "startup.io").map Char.toLower)),
            CacheOp.write (CacheService.make_key CacheService.PREFIX_ENRICHMENT
              ((chars "startup.io").map Char.toLower)) 604800]) :=
  (C9_cache_write_key_ttl_degradation (chars "maria.lopez") (chars "startup.io")
    emptyBackend (Except.ok okResponse) (Except.ok okResponse)
    (by decide) (by decide) (by decide)).2.1 rfl rfl

/-- C10: for every email containing no `"@"`, the orchestrator's public `enrich` raises
(the domain split `email.split("@")[1]` has no element 1) instead of returning a
consolidated result. -/
theorem C10_no_at_raises (email : List Char) (b : CacheBackend)
    (webNet dnsNet : Except (List Char) HttpResponse) (h : '@' ∉ email) :
    EnrichmentService.enrich email b webNet dnsNet
      = Except.error (chars "list index out of range") := by
  unfold EnrichmentService.enrich
  rw [extract_domain_of_no_at email h]

/-- C10, witness: `enrich` on `"plainaddress"` raises. -/
theorem C10_witness :
    EnrichmentService.enrich (chars "plainaddress") emptyBackend (Except.ok okResponse)
        (Except.ok okResponse) = Except.error (chars "list index out of range") :=
  C10_no_at_raises (chars "plainaddress") emptyBackend (Except.ok okResponse)
    (Except.ok okResponse) (by decide)
